import Mathlib

/-!
Verification of the client-side navigation engine of `src/script.js`
(zautner/vibeconnect).

The script manipulates a fixed DOM captured at `DOMContentLoaded`:

* `channelItems` — the elements matching `.channel-item[data-section]`
  (the sidebar NavigationItems), each carrying a `data-section` attribute
  and possibly the CSS class `active`;
* `sections` — the elements matching `.content-section` (the content
  panels), each carrying an `id` and possibly the class `active`;
* the optional `#channel-name` label element (its `textContent`);
* the optional `.messages-container` scroll element (its `scrollTop`);
* `window.location`'s fragment and the `history` entry stack.

We embed this state as the structure `Doc` below and translate the three
stateful handlers of the script — `switchSection` (lines 18-44),
`handleHashChange` (lines 56-61), the ArrowLeft/ArrowRight keydown
handler (lines 241-259) — and the Konami-code keydown handler
(lines 150-165) into Lean functions.  Fallible DOM writes (setting
`scrollTop` or `textContent` on a `null` lookup throws a `TypeError` in
JavaScript) are modelled with `Except`.
-/

/-- A sidebar navigation element (`.channel-item[data-section]`):
its `data-section` attribute and whether it has the `active` class. -/
structure NavItem where
  dataSection : String
  active : Bool
deriving DecidableEq, Repr

/-- A content panel (`.content-section`): its `id` attribute and whether
it has the `active` class. -/
structure ContentSection where
  id : String
  active : Bool
deriving DecidableEq, Repr

/-- The DOM and browser state the script reads and writes.

`label` is `some text` when the `#channel-name` element exists with that
`textContent`, `none` when it is absent.  `labelActiveClass` records
whether that element carries the CSS class `active` (the script can add
it when `getElementById` resolves a section id to this element).
`container` is `some scrollTop` when the `.messages-container` element
exists, `none` when absent.  `fragment` is the current address-bar
fragment without the leading `#`; `history` is the stack of entries, the
current one last.  Per the DOM contract of the page, `data-section`
attributes occur only on nav items and the `id`-bearing elements are the
content panels and the `#channel-name` label. -/
structure Doc where
  navItems : List NavItem
  panels : List ContentSection
  label : Option String
  labelActiveClass : Bool
  container : Option Nat
  fragment : String
  history : List String
deriving DecidableEq, Repr

/-- The `channelNames` mapping of `script.js` lines 9-15 (own properties
only).  A lookup `channelNames[sectionId]` is truthy exactly when the key
is present, since every value is a non-empty string. -/
def channelNames (s : String) : Option String :=
  if s = "hero" then some "# welcome"
  else if s = "demo" then some "# live-demo"
  else if s = "features" then some "# features"
  else if s = "how-it-works" then some "# how-it-works"
  else if s = "setup" then some "# quick-setup"
  else none

/-- `channelItems.forEach(item => item.classList.remove('active'))`
(line 20). -/
def clearItems (l : List NavItem) : List NavItem :=
  l.map fun it => { it with active := false }

/-- `sections.forEach(section => section.classList.remove('active'))`
(line 21). -/
def clearPanels (l : List ContentSection) : List ContentSection :=
  l.map fun p => { p with active := false }

/-- `document.querySelector('[data-section="..."]')` followed by
`classList.add('active')` (lines 24-27): add the class to the first
element whose `data-section` attribute matches, if any. -/
def activateItem (s : String) : List NavItem → List NavItem
  | [] => []
  | it :: l =>
    if it.dataSection = s then { it with active := true } :: l
    else it :: activateItem s l

/-- `classList.add('active')` on the first panel whose `id` matches
(the panel half of `document.getElementById`, lines 30-32). -/
def activatePanel (s : String) : List ContentSection → List ContentSection
  | [] => []
  | p :: l =>
    if p.id = s then { p with active := true } :: l
    else p :: activatePanel s l

/-- Which element `document.getElementById(s)` resolves to in the
modelled document. -/
inductive ElemRef where
  | panelRef
  | labelRef
deriving DecidableEq, Repr

/-- `document.getElementById(s)`: the id-bearing elements of the page are
the content panels and (when present) the `#channel-name` label. -/
def getElementById? (d : Doc) (s : String) : Option ElemRef :=
  if ∃ p ∈ d.panels, p.id = s then some .panelRef
  else if s = "channel-name" ∧ d.label.isSome then some .labelRef
  else none

/-- Steps 4-6 of `switchSection` (lines 37-43): if `channelNames` has a
truthy entry for the id, write the label's `textContent` (a `TypeError`
if the `#channel-name` element is absent, since only the mapping — not
the element — is checked); then `history.pushState(null, null, '#'+id)`,
which rewrites the fragment and appends a history entry without reload,
scroll, or a `hashchange` event. -/
def updateNameAndHash (label : Option String) (hist : List String)
    (items : List NavItem) (panels : List ContentSection)
    (container : Option Nat) (lblActive : Bool) (sectionId : String) :
    Except String Doc :=
  match channelNames sectionId with
  | some title =>
    match label with
    | none => .error "TypeError: cannot set textContent of null"
    | some _ =>
      .ok ⟨items, panels, some title, lblActive, container,
           sectionId, hist ++ [sectionId]⟩
  | none =>
    .ok ⟨items, panels, label, lblActive, container,
         sectionId, hist ++ [sectionId]⟩

/-- `switchSection` (lines 18-44).  In code order: remove `active` from
every nav item and panel; add it to the first element with a matching
`data-section`; resolve `getElementById(sectionId)` and, when it finds an
element, add `active` to it and assign
`document.querySelector('.messages-container').scrollTop = 0` — a
`TypeError` when that container is absent, as the script does not check
it; finally update the channel name and push the new fragment. -/
def switchSection (d : Doc) (sectionId : String) : Except String Doc :=
  match getElementById? d sectionId with
  | some .panelRef =>
    match d.container with
    | none => .error "TypeError: cannot set scrollTop of null"
    | some _ =>
      updateNameAndHash d.label d.history
        (activateItem sectionId (clearItems d.navItems))
        (activatePanel sectionId (clearPanels d.panels))
        (some 0) d.labelActiveClass sectionId
  | some .labelRef =>
    match d.container with
    | none => .error "TypeError: cannot set scrollTop of null"
    | some _ =>
      updateNameAndHash d.label d.history
        (activateItem sectionId (clearItems d.navItems))
        (clearPanels d.panels)
        (some 0) true sectionId
  | none =>
    updateNameAndHash d.label d.history
      (activateItem sectionId (clearItems d.navItems))
      (clearPanels d.panels)
      d.container d.labelActiveClass sectionId

/-- The guard of `handleHashChange` (lines 56-61): the id `switchSection`
is invoked with, when the fragment is truthy and `getElementById` finds
an element for it; `none` when no call is made. -/
def hashCallsSwitch (d : Doc) : Option String :=
  if d.fragment ≠ "" ∧ (getElementById? d d.fragment).isSome then
    some d.fragment
  else none

/-- `handleHashChange` as a state transition (also run on initial load
when the location carries a fragment). -/
def handleHashChange (d : Doc) : Except String Doc :=
  match hashCallsSwitch d with
  | some h => switchSection d h
  | none => .ok d

/-- Index of the first panel with the `active` class:
`allSections.indexOf(document.querySelector('.content-section.active'))`
returns this index, or `-1` when the query returns `null`. -/
def firstActiveIdx : List ContentSection → Option Nat
  | [] => none
  | p :: l => if p.active then some 0 else (firstActiveIdx l).map (· + 1)

/-- `currentIndex` of the keydown handler (lines 243-245): the index of
the first active panel, `-1` when none is active. -/
def currentIndex (panels : List ContentSection) : Int :=
  match firstActiveIdx panels with
  | some i => (i : Int)
  | none => -1

/-- The two keys the keyboard-navigation handler reacts to. -/
inductive ArrowKey where
  | left
  | right
deriving DecidableEq, Repr

/-- `nextIndex` (lines 247-252).  JavaScript's `%` is the truncating
remainder, `Int.tmod`. -/
def nextIndexJS (panels : List ContentSection) (k : ArrowKey) : Int :=
  let N : Int := panels.length
  let i := currentIndex panels
  match k with
  | .left => (i - 1 + N).tmod N
  | .right => (i + 1).tmod N

/-- `allSections[nextIndex]` (line 254).  With no panels the JavaScript
expression `x % 0` is `NaN` and the array access yields `undefined`; the
only negative value `nextIndex` can take is the `-0` produced by
`-1 % 1`, and `array[-0]` is `array[0]`, matching `Int.toNat`. -/
def navTarget (d : Doc) (k : ArrowKey) : Option ContentSection :=
  if d.panels.isEmpty then none
  else d.panels[(nextIndexJS d.panels k).toNat]?

/-- The ArrowLeft/ArrowRight keydown handler (lines 241-259):
`if (nextSection) switchSection(nextSection.id)`. -/
def keydownArrow (d : Doc) (k : ArrowKey) : Except String Doc :=
  match navTarget d k with
  | some sec => switchSection d sec.id
  | none => .ok d

/-- `n` consecutive ArrowRight presses, stopping at the first error. -/
def pressRightIter : Nat → Doc → Except String Doc
  | 0, d => .ok d
  | n + 1, d =>
    match keydownArrow d .right with
    | .ok d2 => pressRightIter n d2
    | .error e => .error e

/-- The `konamiSequence` constant (line 152). -/
def konamiSequence : List String :=
  ["ArrowUp", "ArrowUp", "ArrowDown", "ArrowDown",
   "ArrowLeft", "ArrowRight", "ArrowLeft", "ArrowRight", "b", "a"]

/-- `array.slice(-n)`: the `min n length` most recent elements. -/
def lastN (n : Nat) (l : List String) : List String :=
  (l.reverse.take n).reverse

/-- One Konami keydown (lines 155-156): `konamiCode.push(e.key);
konamiCode = konamiCode.slice(-10)`. -/
def konamiStep (buf : List String) (k : String) : List String :=
  lastN 10 (buf ++ [k])

/-- The Konami buffer after a whole keydown stream, starting from the
initial `konamiCode = []` (line 151). -/
def konamiRun (keys : List String) : List String :=
  keys.foldl konamiStep []

/-- Whether the Easter-egg animation fires on the last keydown of the
stream: `konamiCode.join('') === konamiSequence.join('')` (line 158). -/
def konamiFires (keys : List String) : Bool :=
  String.join (konamiRun keys) == String.join konamiSequence

/-! ### Helper notions used only in statements and proofs -/

/-- Number of nav items carrying the `active` class. -/
def countActiveItems (l : List NavItem) : Nat := l.countP (·.active)

/-- Number of panels carrying the `active` class. -/
def countActivePanels (l : List ContentSection) : Nat := l.countP (·.active)

/-- Index of the first panel whose `id` is `s`. -/
def firstMatchIdx (s : String) : List ContentSection → Option Nat
  | [] => none
  | p :: l => if p.id = s then some 0 else (firstMatchIdx s l).map (· + 1)

/-- The label text after `switchSection`'s step 5: overwritten by the
registry title when one exists, untouched otherwise. -/
def labelAfter (lbl : Option String) (s : String) : Option String :=
  match channelNames s with
  | some t => some t
  | none => lbl

/-- Whether an `Except` result is the error case. -/
def isErr (e : Except String Doc) : Bool :=
  match e with
  | .error _ => true
  | .ok _ => false

instance : DecidableEq (Except String Doc) :=
  fun a b =>
    match a, b with
    | .error x, .error y => decidable_of_iff (x = y) (by simp)
    | .ok x, .ok y => decidable_of_iff (x = y) (by simp)
    | .error _, .ok _ => isFalse (by simp)
    | .ok _, .error _ => isFalse (by simp)

/-! ### Concrete documents used as test inputs -/

/-- A two-section page in its post-load state: `hero` active, fragment
`hero`, label and scroll container present. -/
def docHero : Doc :=
  ⟨[⟨"hero", true⟩, ⟨"demo", false⟩],
   [⟨"hero", true⟩, ⟨"demo", false⟩],
   some "# welcome", false, some 5, "hero", ["hero"]⟩

/-- The state `switchSection docHero "nope"` produces: every active
marker cleared, fragment and history rewritten to the unknown id. -/
def docHeroAfterNope : Doc :=
  ⟨[⟨"hero", false⟩, ⟨"demo", false⟩],
   [⟨"hero", false⟩, ⟨"demo", false⟩],
   some "# welcome", false, some 5, "nope", ["hero", "nope"]⟩

/-- A page whose `.messages-container` element is absent. -/
def docNoContainer : Doc :=
  ⟨[⟨"hero", false⟩], [⟨"hero", false⟩],
   some "# welcome", false, none, "", []⟩

/-- A page loaded with fragment `#channel-name`: no Section has that id,
but the channel-name label element does. -/
def docLabelFragment : Doc :=
  ⟨[⟨"hero", false⟩], [⟨"hero", true⟩],
   some "# welcome", false, some 0, "channel-name", ["hero"]⟩

/-- A page whose `#channel-name` element is absent, fragment `#hero`. -/
def docNoLabel : Doc :=
  ⟨[⟨"hero", false⟩], [⟨"hero", true⟩], none, false, some 0, "hero", []⟩

/-- A three-section page with the middle section active. -/
def docThree : Doc :=
  ⟨[⟨"hero", false⟩, ⟨"demo", true⟩, ⟨"features", false⟩],
   [⟨"hero", false⟩, ⟨"demo", true⟩, ⟨"features", false⟩],
   some "# live-demo", false, some 0, "demo", ["demo"]⟩

/-- A three-section page with no section active. -/
def docNoneActive : Doc :=
  ⟨[⟨"hero", false⟩, ⟨"demo", false⟩, ⟨"features", false⟩],
   [⟨"hero", false⟩, ⟨"demo", false⟩, ⟨"features", false⟩],
   some "# welcome", false, some 0, "", []⟩

/-- Ten keydown strings whose concatenation equals that of
`konamiSequence` although the list itself differs from it. -/
def konamiCollision : List String :=
  ["Arrow", "Up", "ArrowUp", "ArrowDown", "ArrowDown",
   "ArrowLeft", "ArrowRight", "ArrowLeft", "ArrowRight", "ba"]

/-! ### Lemmas about clearing and activating markers -/

theorem clearPanels_inactive (l : List ContentSection) :
    ∀ p ∈ clearPanels l, p.active = false := by
  intro p hp
  simp only [clearPanels, List.mem_map] at hp
  obtain ⟨q, -, rfl⟩ := hp
  rfl

theorem clearItems_inactive (l : List NavItem) :
    ∀ it ∈ clearItems l, it.active = false := by
  intro it hit
  simp only [clearItems, List.mem_map] at hit
  obtain ⟨q, -, rfl⟩ := hit
  rfl

theorem clearPanels_map_id (l : List ContentSection) :
    (clearPanels l).map ContentSection.id = l.map ContentSection.id := by
  simp [clearPanels, List.map_map, Function.comp_def]

theorem clearItems_map_ds (l : List NavItem) :
    (clearItems l).map NavItem.dataSection = l.map NavItem.dataSection := by
  simp [clearItems, List.map_map, Function.comp_def]

theorem activatePanel_map_id (s : String) (l : List ContentSection) :
    (activatePanel s l).map ContentSection.id = l.map ContentSection.id := by
  induction l with
  | nil => rfl
  | cons p l ih =>
    by_cases h : p.id = s <;> simp [activatePanel, h, ih]

theorem activatePanel_of_not_mem (s : String) (l : List ContentSection)
    (h : ∀ p ∈ l, p.id ≠ s) : activatePanel s l = l := by
  induction l with
  | nil => rfl
  | cons p l ih =>
    have hp : p.id ≠ s := h p (by simp)
    simp only [activatePanel, if_neg hp]
    rw [ih fun q hq => h q (by simp [hq])]

theorem activateItem_of_not_mem (s : String) (l : List NavItem)
    (h : ∀ it ∈ l, it.dataSection ≠ s) : activateItem s l = l := by
  induction l with
  | nil => rfl
  | cons p l ih =>
    have hp : p.dataSection ≠ s := h p (by simp)
    simp only [activateItem, if_neg hp]
    rw [ih fun q hq => h q (by simp [hq])]

theorem countActivePanels_eq_zero (l : List ContentSection)
    (h : ∀ p ∈ l, p.active = false) : countActivePanels l = 0 := by
  simp only [countActivePanels, List.countP_eq_zero]
  intro p hp
  simp [h p hp]

theorem countActiveItems_eq_zero (l : List NavItem)
    (h : ∀ it ∈ l, it.active = false) : countActiveItems l = 0 := by
  simp only [countActiveItems, List.countP_eq_zero]
  intro it hit
  simp [h it hit]

theorem countActivePanels_activate (s : String) (l : List ContentSection)
    (hin : ∀ p ∈ l, p.active = false) (hmem : ∃ p ∈ l, p.id = s) :
    countActivePanels (activatePanel s l) = 1 := by
  induction l with
  | nil => simp at hmem
  | cons p l ih =>
    by_cases h : p.id = s
    · have hz := countActivePanels_eq_zero l fun q hq => hin q (by simp [hq])
      simp [activatePanel, h, countActivePanels, List.countP_cons] at hz ⊢
      simpa [countActivePanels] using hz
    · have hp : p.active = false := hin p (by simp)
      have hmem2 : ∃ q ∈ l, q.id = s := by
        obtain ⟨q, hq, hqs⟩ := hmem
        rcases List.mem_cons.mp hq with rfl | hq2
        · exact absurd hqs h
        · exact ⟨q, hq2, hqs⟩
      have := ih (fun q hq => hin q (by simp [hq])) hmem2
      simp [activatePanel, h, countActivePanels, List.countP_cons, hp] at this ⊢
      simpa [countActivePanels] using this

theorem countActiveItems_activate (s : String) (l : List NavItem)
    (hin : ∀ it ∈ l, it.active = false) (hmem : ∃ it ∈ l, it.dataSection = s) :
    countActiveItems (activateItem s l) = 1 := by
  induction l with
  | nil => simp at hmem
  | cons p l ih =>
    by_cases h : p.dataSection = s
    · have hz := countActiveItems_eq_zero l fun q hq => hin q (by simp [hq])
      simp [activateItem, h, countActiveItems, List.countP_cons] at hz ⊢
      simpa [countActiveItems] using hz
    · have hp : p.active = false := hin p (by simp)
      have hmem2 : ∃ q ∈ l, q.dataSection = s := by
        obtain ⟨q, hq, hqs⟩ := hmem
        rcases List.mem_cons.mp hq with rfl | hq2
        · exact absurd hqs h
        · exact ⟨q, hq2, hqs⟩
      have := ih (fun q hq => hin q (by simp [hq])) hmem2
      simp [activateItem, h, countActiveItems, List.countP_cons, hp] at this ⊢
      simpa [countActiveItems] using this

theorem countActivePanels_activate_le_one (s : String) (l : List ContentSection)
    (hin : ∀ p ∈ l, p.active = false) :
    countActivePanels (activatePanel s l) ≤ 1 := by
  induction l with
  | nil => simp [activatePanel, countActivePanels]
  | cons p l ih =>
    by_cases h : p.id = s
    · have hz := countActivePanels_eq_zero l fun q hq => hin q (by simp [hq])
      simp only [countActivePanels] at hz
      simp [activatePanel, h, countActivePanels, List.countP_cons, hz]
    · have hp : p.active = false := hin p (by simp)
      have h2 := ih fun q hq => hin q (by simp [hq])
      simpa [activatePanel, h, countActivePanels, List.countP_cons, hp] using h2

theorem countActiveItems_activate_le_one (s : String) (l : List NavItem)
    (hin : ∀ it ∈ l, it.active = false) :
    countActiveItems (activateItem s l) ≤ 1 := by
  induction l with
  | nil => simp [activateItem, countActiveItems]
  | cons p l ih =>
    by_cases h : p.dataSection = s
    · have hz := countActiveItems_eq_zero l fun q hq => hin q (by simp [hq])
      simp only [countActiveItems] at hz
      simp [activateItem, h, countActiveItems, List.countP_cons, hz]
    · have hp : p.active = false := hin p (by simp)
      have h2 := ih fun q hq => hin q (by simp [hq])
      simpa [activateItem, h, countActiveItems, List.countP_cons, hp] using h2

theorem activatePanel_active_imp (s : String) (l : List ContentSection)
    (hin : ∀ p ∈ l, p.active = false) :
    ∀ p ∈ activatePanel s l, p.active = true → p.id = s := by
  induction l with
  | nil => simp [activatePanel]
  | cons p l ih =>
    by_cases h : p.id = s
    · intro q hq hqa
      simp only [activatePanel, if_pos h] at hq
      rcases List.mem_cons.mp hq with rfl | hq2
      · exact h
      · exact absurd hqa (by simp [hin q (by simp [hq2])])
    · intro q hq hqa
      simp only [activatePanel, if_neg h] at hq
      rcases List.mem_cons.mp hq with rfl | hq2
      · exact absurd hqa (by simp [hin q (by simp)])
      · exact ih (fun r hr => hin r (by simp [hr])) q hq2 hqa

theorem activateItem_active_imp (s : String) (l : List NavItem)
    (hin : ∀ it ∈ l, it.active = false) :
    ∀ it ∈ activateItem s l, it.active = true → it.dataSection = s := by
  induction l with
  | nil => simp [activateItem]
  | cons p l ih =>
    by_cases h : p.dataSection = s
    · intro q hq hqa
      simp only [activateItem, if_pos h] at hq
      rcases List.mem_cons.mp hq with rfl | hq2
      · exact h
      · exact absurd hqa (by simp [hin q (by simp [hq2])])
    · intro q hq hqa
      simp only [activateItem, if_neg h] at hq
      rcases List.mem_cons.mp hq with rfl | hq2
      · exact absurd hqa (by simp [hin q (by simp)])
      · exact ih (fun r hr => hin r (by simp [hr])) q hq2 hqa

/-! ### Lemmas about `getElementById?` and the shape of `switchSection` -/

theorem getElementById?_panelRef (d : Doc) (s : String)
    (h : ∃ p ∈ d.panels, p.id = s) : getElementById? d s = some .panelRef := by
  simp [getElementById?, h]

theorem switchSection_found (d : Doc) (s : String) (c : Nat)
    (hf : ∃ p ∈ d.panels, p.id = s) (hc : d.container = some c)
    (hl : (channelNames s).isSome → d.label.isSome) :
    switchSection d s = Except.ok
      ⟨activateItem s (clearItems d.navItems),
       activatePanel s (clearPanels d.panels),
       labelAfter d.label s, d.labelActiveClass, some 0, s,
       d.history ++ [s]⟩ := by
  have hid := getElementById?_panelRef d s hf
  unfold switchSection
  rw [hid, hc]
  unfold updateNameAndHash
  cases hcn : channelNames s with
  | none => simp [labelAfter, hcn]
  | some t =>
    obtain ⟨u, hu⟩ := Option.isSome_iff_exists.mp (hl (by simp [hcn]))
    rw [hu]
    simp [labelAfter, hcn]

theorem switchSection_shape (d : Doc) (s : String) (r : Doc)
    (h : switchSection d s = Except.ok r) :
    r.navItems = activateItem s (clearItems d.navItems) ∧
    (r.panels = activatePanel s (clearPanels d.panels) ∨
      r.panels = clearPanels d.panels) ∧
    r.fragment = s ∧ r.history = d.history ++ [s] := by
  unfold switchSection at h
  cases heid : getElementById? d s with
  | none =>
    rw [heid] at h
    unfold updateNameAndHash at h
    cases hcn : channelNames s with
    | none =>
      rw [hcn] at h
      cases h
      simp
    | some t =>
      rw [hcn] at h
      cases hlb : d.label with
      | none => rw [hlb] at h; cases h
      | some u => rw [hlb] at h; cases h; simp
  | some er =>
    rw [heid] at h
    cases hct : d.container with
    | none => cases er <;> rw [hct] at h <;> cases h
    | some c =>
      cases er <;> rw [hct] at h <;> unfold updateNameAndHash at h
      case panelRef =>
        cases hcn : channelNames s with
        | none => rw [hcn] at h; cases h; simp
        | some t =>
          rw [hcn] at h
          cases hlb : d.label with
          | none => rw [hlb] at h; cases h
          | some u => rw [hlb] at h; cases h; simp
      case labelRef =>
        cases hcn : channelNames s with
        | none => rw [hcn] at h; cases h; simp
        | some t =>
          rw [hcn] at h
          cases hlb : d.label with
          | none => rw [hlb] at h; cases h
          | some u => rw [hlb] at h; cases h; simp

theorem switchSection_ok_of_present (d : Doc) (s : String) (c : Nat) (t : String)
    (hc : d.container = some c) (hl : d.label = some t) :
    ∃ r, switchSection d s = Except.ok r := by
  unfold switchSection updateNameAndHash
  cases heid : getElementById? d s with
  | none =>
    cases hcn : channelNames s with
    | none => exact ⟨_, rfl⟩
    | some t2 => rw [hl]; exact ⟨_, rfl⟩
  | some er =>
    cases er <;> rw [hc] <;> (
      cases hcn : channelNames s with
      | none => exact ⟨_, rfl⟩
      | some t2 => rw [hl]; exact ⟨_, rfl⟩)

/-! ### Lemmas about first-index computations -/

theorem firstMatchIdx_clearPanels (s : String) (l : List ContentSection) :
    firstMatchIdx s (clearPanels l) = firstMatchIdx s l := by
  induction l with
  | nil => rfl
  | cons p l ih =>
    simp only [clearPanels, List.map_cons] at *
    by_cases h : p.id = s <;> simp [firstMatchIdx, h, ih]

theorem firstActiveIdx_activatePanel (s : String) :
    ∀ (l : List ContentSection) (m : Nat),
      (∀ p ∈ l, p.active = false) → firstMatchIdx s l = some m →
      firstActiveIdx (activatePanel s l) = some m := by
  intro l
  induction l with
  | nil => intro m _ hm; simp [firstMatchIdx] at hm
  | cons p l ih =>
    intro m hin hm
    by_cases h : p.id = s
    · simp only [firstMatchIdx, if_pos h] at hm
      cases hm
      simp [activatePanel, h, firstActiveIdx]
    · simp only [firstMatchIdx, if_neg h] at hm
      cases hml : firstMatchIdx s l with
      | none => rw [hml] at hm; simp at hm
      | some m2 =>
        rw [hml] at hm
        simp at hm
        have hp : p.active = false := hin p (by simp)
        have hrec := ih m2 (fun q hq => hin q (by simp [hq])) hml
        simp [activatePanel, h, firstActiveIdx, hp, hrec, hm]

theorem firstMatchIdx_of_nodup :
    ∀ (l : List ContentSection) (j : Nat) (p : ContentSection),
      (l.map ContentSection.id).Nodup → l[j]? = some p →
      firstMatchIdx p.id l = some j := by
  intro l
  induction l with
  | nil => intro j p _ hj; simp at hj
  | cons q l ih =>
    intro j p hnd hj
    have hnd2 : q.id ∉ l.map ContentSection.id ∧
        (l.map ContentSection.id).Nodup :=
      List.nodup_cons.mp (by simpa using hnd)
    cases j with
    | zero =>
      simp only [List.getElem?_cons_zero, Option.some_inj] at hj
      subst hj
      simp [firstMatchIdx]
    | succ j2 =>
      simp only [List.getElem?_cons_succ] at hj
      have hpm : p ∈ l := List.getElem?_mem hj
      have hne : q.id ≠ p.id := by
        intro he
        exact hnd2.1 (he ▸ List.mem_map_of_mem ContentSection.id hpm)
      have hrec := ih j2 p hnd2.2 hj
      simp [firstMatchIdx, hne, hrec]

theorem firstActiveIdx_lt_length :
    ∀ (l : List ContentSection) (i : Nat),
      firstActiveIdx l = some i → i < l.length := by
  intro l
  induction l with
  | nil => intro i h; simp [firstActiveIdx] at h
  | cons p l ih =>
    intro i h
    simp only [List.length_cons]
    cases hp : p.active with
    | true =>
      simp [firstActiveIdx, hp] at h
      omega
    | false =>
      simp only [firstActiveIdx, hp, Bool.false_eq_true, if_false] at h
      cases hml : firstActiveIdx l with
      | none => rw [hml] at h; simp at h
      | some i2 =>
        rw [hml] at h
        simp at h
        have := ih i2 hml
        omega

theorem firstMatchIdx_isSome (s : String) :
    ∀ l : List ContentSection, (∃ p ∈ l, p.id = s) →
      ∃ m, firstMatchIdx s l = some m := by
  intro l
  induction l with
  | nil => simp
  | cons p l ih =>
    intro hex
    by_cases h : p.id = s
    · exact ⟨0, by simp [firstMatchIdx, h]⟩
    · obtain ⟨q, hq, hqs⟩ := hex
      rcases List.mem_cons.mp hq with rfl | hq2
      · exact absurd hqs h
      · obtain ⟨m, hm⟩ := ih ⟨q, hq2, hqs⟩
        exact ⟨m + 1, by simp [firstMatchIdx, h, hm]⟩

theorem getElementById?_isSome_iff_of_label_none (d : Doc) (s : String)
    (hlb : d.label = none) :
    (getElementById? d s).isSome = true ↔ ∃ p ∈ d.panels, p.id = s := by
  unfold getElementById?
  by_cases h : ∃ p ∈ d.panels, p.id = s
  · simp [h]
  · simp [h, hlb]

/-! ### Claim C1 -/

/-- Claim C1, as stated, is false: for an id matching no known Section,
`switchSection` is not a no-op.  On `docHero` (section `hero` active,
fragment `hero`) the unknown id `nope` deactivates every nav item and
panel and rewrites the fragment. -/
theorem claim1_counterexample :
    switchSection docHero "nope" = Except.ok docHeroAfterNope ∧
    docHeroAfterNope.panels ≠ docHero.panels ∧
    docHeroAfterNope.navItems ≠ docHero.navItems ∧
    docHeroAfterNope.fragment ≠ docHero.fragment := by
  decide

/-- Claim C1 (amended): for an id that matches no NavigationItem, no
element id (Section or label), and no registry title, `switchSection`
raises no error and touches neither the label, the scroll offset nor the
label text — but it is not a no-op: it removes the active marker from
every NavigationItem and content panel (leaving none active) and still
pushes a new history entry with fragment `#id`. -/
theorem claim1_invalid_id_clears_and_pushes (d : Doc) (s : String)
    (hnav : ∀ it ∈ d.navItems, it.dataSection ≠ s)
    (hel : getElementById? d s = none)
    (hcn : channelNames s = none) :
    switchSection d s = Except.ok
      { d with navItems := clearItems d.navItems,
               panels := clearPanels d.panels,
               fragment := s, history := d.history ++ [s] } ∧
    (∀ p ∈ clearPanels d.panels, p.active = false) ∧
    (∀ it ∈ clearItems d.navItems, it.active = false) := by
  refine ⟨?_, clearPanels_inactive _, clearItems_inactive _⟩
  unfold switchSection
  rw [hel]
  unfold updateNameAndHash
  rw [hcn]
  have hact : activateItem s (clearItems d.navItems) = clearItems d.navItems := by
    apply activateItem_of_not_mem
    intro it hit
    simp only [clearItems, List.mem_map] at hit
    obtain ⟨q, hq, rfl⟩ := hit
    exact hnav q hq
  rw [hact]

/-- Witness for the amended C1 at `docHero` and the unknown id `zzz`. -/
theorem claim1_witness :
    ((∀ it ∈ docHero.navItems, it.dataSection ≠ "zzz") ∧
      getElementById? docHero "zzz" = none ∧ channelNames "zzz" = none) ∧
    switchSection docHero "zzz" = Except.ok
      { docHero with navItems := clearItems docHero.navItems,
                     panels := clearPanels docHero.panels,
                     fragment := "zzz",
                     history := docHero.history ++ ["zzz"] } :=
  ⟨⟨by decide, by decide, by decide⟩,
   (claim1_invalid_id_clears_and_pushes docHero "zzz"
     (by decide) (by decide) (by decide)).1⟩

/-! ### Claim C2 -/

/-- Claim C2: for a valid Section id `s` (a matching NavigationItem and a
matching panel exist) on a page with label and scroll container present,
`switchSection d s` succeeds, and afterwards exactly one NavigationItem
and exactly one content panel carry the active marker, both with key `s`;
moreover after any successful `switchSection` call at most one panel and
at most one nav item are active. -/
theorem claim2_exactly_one_active (d : Doc) (s : String) (c : Nat) (t : String)
    (hnav : ∃ it ∈ d.navItems, it.dataSection = s)
    (hpan : ∃ p ∈ d.panels, p.id = s)
    (hc : d.container = some c) (hl : d.label = some t) :
    (∃ r, switchSection d s = Except.ok r ∧
      countActiveItems r.navItems = 1 ∧
      (∀ it ∈ r.navItems, it.active = true → it.dataSection = s) ∧
      countActivePanels r.panels = 1 ∧
      (∀ p ∈ r.panels, p.active = true → p.id = s)) ∧
    (∀ u r2, switchSection d u = Except.ok r2 →
      countActivePanels r2.panels ≤ 1 ∧ countActiveItems r2.navItems ≤ 1) := by
  constructor
  · have hfound := switchSection_found d s c hpan hc (fun _ => by simp [hl])
    refine ⟨_, hfound, ?_, ?_, ?_, ?_⟩
    · apply countActiveItems_activate s _ (clearItems_inactive _)
      obtain ⟨it, hit, hits⟩ := hnav
      exact ⟨_, List.mem_map_of_mem _ hit, hits⟩
    · exact activateItem_active_imp s _ (clearItems_inactive _)
    · apply countActivePanels_activate s _ (clearPanels_inactive _)
      obtain ⟨p, hp, hps⟩ := hpan
      exact ⟨_, List.mem_map_of_mem _ hp, hps⟩
    · exact activatePanel_active_imp s _ (clearPanels_inactive _)
  · intro u r2 h2
    obtain ⟨hni, hpa, -, -⟩ := switchSection_shape d u r2 h2
    constructor
    · rcases hpa with hpa | hpa
      · rw [hpa]
        exact countActivePanels_activate_le_one u _ (clearPanels_inactive _)
      · rw [hpa]
        have := countActivePanels_eq_zero _ (clearPanels_inactive d.panels)
        omega
    · rw [hni]
      exact countActiveItems_activate_le_one u _ (clearItems_inactive _)

/-- Witness for C2 at `docHero` and the valid id `demo`. -/
theorem claim2_witness :
    ((∃ it ∈ docHero.navItems, it.dataSection = "demo") ∧
      (∃ p ∈ docHero.panels, p.id = "demo") ∧
      docHero.container = some 5 ∧ docHero.label = some "# welcome") ∧
    (∃ r, switchSection docHero "demo" = Except.ok r ∧
      countActiveItems r.navItems = 1 ∧
      (∀ it ∈ r.navItems, it.active = true → it.dataSection = "demo") ∧
      countActivePanels r.panels = 1 ∧
      (∀ p ∈ r.panels, p.active = true → p.id = "demo")) :=
  ⟨⟨by decide, by decide, by decide, by decide⟩,
   (claim2_exactly_one_active docHero "demo" 5 "# welcome"
     (by decide) (by decide) (by decide) (by decide)).1⟩

/-! ### Claim C3 -/

/-- Claim C3: on a page with label and scroll container present (the DOM
contract of the page), every `switchSection d s` call completes and sets
the address-bar fragment to `s` by appending one new history entry, so
all prior entries remain for back/forward navigation.  (`pushState`
neither reloads nor scrolls, and the model reflects that it has no
further effect.) -/
theorem claim3_pushes_fragment (d : Doc) (s : String) (c : Nat) (t : String)
    (hc : d.container = some c) (hl : d.label = some t) :
    ∃ r, switchSection d s = Except.ok r ∧ r.fragment = s ∧
      r.history = d.history ++ [s] := by
  obtain ⟨r, hr⟩ := switchSection_ok_of_present d s c t hc hl
  obtain ⟨-, -, hf, hh⟩ := switchSection_shape d s r hr
  exact ⟨r, hr, hf, hh⟩

/-- Witness for C3 at `docHero` and id `features`. -/
theorem claim3_witness :
    (docHero.container = some 5 ∧ docHero.label = some "# welcome") ∧
    (∃ r, switchSection docHero "features" = Except.ok r ∧
      r.fragment = "features" ∧
      r.history = docHero.history ++ ["features"]) :=
  ⟨⟨by decide, by decide⟩,
   claim3_pushes_fragment docHero "features" 5 "# welcome"
     (by decide) (by decide)⟩

/-! ### Claim C4 -/

/-- Claim C4, as stated, is false: the scroll container's existence is
not checked before use.  On `docNoContainer` (panel `hero` exists, the
`.messages-container` element is absent) `switchSection` raises a
`TypeError` instead of completing. -/
theorem claim4_counterexample :
    switchSection docNoContainer "hero" =
      Except.error "TypeError: cannot set scrollTop of null" ∧
    (∃ p ∈ docNoContainer.panels, p.id = "hero") := by
  decide

/-- Claim C4 (amended): `switchSection d s` raises an error exactly when
`getElementById` finds an element for `s` while the scroll container is
absent, or the registry has a title for `s` while the channel-name label
is absent; in every other case the call completes and absent optional
elements are simply not touched.  (The nav-item and panel lookups and the
header buttons are existence-checked; the scroll container and the label
are not.) -/
theorem claim4_error_characterisation (d : Doc) (s : String) :
    isErr (switchSection d s) =
      ((getElementById? d s).isSome && d.container.isNone ||
       (channelNames s).isSome && d.label.isNone) := by
  unfold switchSection
  cases heid : getElementById? d s with
  | none =>
    unfold updateNameAndHash
    cases hcn : channelNames s with
    | none => simp [isErr]
    | some t =>
      cases hlb : d.label with
      | none => simp [isErr]
      | some u => simp [isErr]
  | some er =>
    cases hct : d.container with
    | none => cases er <;> simp [isErr]
    | some c =>
      cases er <;> unfold updateNameAndHash <;> (
        cases hcn : channelNames s with
        | none => simp [isErr]
        | some t =>
          cases hlb : d.label with
          | none => simp [isErr]
          | some u => simp [isErr])

/-! ### Claim C5 -/

/-- Claim C5, as stated, is false: `handleHashChange` verifies only that
an element with the fragment's id exists, not that a Section does.  On
`docLabelFragment` (fragment `channel-name`, label element present, no
panel with that id) it calls `switchSection` with the non-Section id
`channel-name`. -/
theorem claim5_counterexample :
    hashCallsSwitch docLabelFragment = some "channel-name" ∧
    (∀ p ∈ docLabelFragment.panels, p.id ≠ "channel-name") := by
  decide

/-- Claim C5 (amended): on fragment changes and initial load,
`handleHashChange` calls `switchSection` with the current fragment if and
only if the fragment is non-empty and some document element with that id
exists — a check that coincides with Section existence exactly when the
content panels are the only id-bearing elements (label absent), but that
admits the channel-name label's id otherwise. -/
theorem claim5_hash_guard (d : Doc) (s : String) :
    (hashCallsSwitch d = some s →
      s = d.fragment ∧ s ≠ "" ∧ (getElementById? d s).isSome = true) ∧
    (d.label = none →
      (hashCallsSwitch d = some s ↔
        s = d.fragment ∧ s ≠ "" ∧ ∃ p ∈ d.panels, p.id = s)) := by
  constructor
  · intro h
    unfold hashCallsSwitch at h
    split at h
    · rename_i hcond
      cases h
      exact ⟨rfl, hcond.1, by simp [hcond.2]⟩
    · cases h
  · intro hlb
    constructor
    · intro h
      unfold hashCallsSwitch at h
      split at h
      · rename_i hcond
        cases h
        exact ⟨rfl, hcond.1,
          (getElementById?_isSome_iff_of_label_none d d.fragment hlb).mp
            (by simp [hcond.2])⟩
      · cases h
    · rintro ⟨rfl, h2, h3⟩
      unfold hashCallsSwitch
      rw [if_pos ⟨h2, by
        rw [getElementById?_isSome_iff_of_label_none d d.fragment hlb]
        exact h3⟩]

/-- Witness for the amended C5 at `docNoLabel` (label absent, fragment
`hero`, panel `hero` present). -/
theorem claim5_witness :
    docNoLabel.label = none ∧ hashCallsSwitch docNoLabel = some "hero" :=
  ⟨by decide,
   ((claim5_hash_guard docNoLabel "hero").2 (by decide)).mpr (by decide)⟩

/-! ### Keyboard navigation: index arithmetic -/

theorem natCast_tmod (m n : Nat) :
    ((m : Int)).tmod (n : Int) = ((m % n : Nat) : Int) := by
  rw [Int.tmod_eq_emod (by omega) (by omega)]
  exact (Int.ofNat_emod m n).symm

theorem navmod_spec (x : Int) (N : Nat) (hN : 1 ≤ N)
    (hx : 0 ≤ x ∨ (x = -1 ∧ N = 1)) :
    x.tmod N = x % N ∧ 0 ≤ x % N ∧ x % N < N := by
  rcases hx with hx | ⟨rfl, rfl⟩
  · exact ⟨Int.tmod_eq_emod hx (by omega),
      Int.emod_nonneg x (by omega), Int.emod_lt_of_pos x (by omega)⟩
  · refine ⟨?_, ?_, ?_⟩ <;> decide

theorem currentIndex_bounds (panels : List ContentSection) :
    -1 ≤ currentIndex panels ∧ currentIndex panels < (panels.length : Int) ∨
      currentIndex panels = -1 := by
  unfold currentIndex
  cases hfa : firstActiveIdx panels with
  | none => right; rfl
  | some a =>
    left
    have := firstActiveIdx_lt_length _ _ hfa
    constructor <;> simp <;> omega

theorem keydownArrow_activates (d : Doc) (k : ArrowKey) (c : Nat) (t : String)
    (j : Nat)
    (hnd : (d.panels.map ContentSection.id).Nodup)
    (hc : d.container = some c) (hl : d.label = some t)
    (hne : d.panels ≠ [])
    (hj : (nextIndexJS d.panels k).toNat = j) (hjlt : j < d.panels.length) :
    ∃ r, keydownArrow d k = Except.ok r ∧
      firstActiveIdx r.panels = some j ∧
      r.panels.map ContentSection.id = d.panels.map ContentSection.id ∧
      r.container = some 0 ∧ (∃ t2, r.label = some t2) := by
  have hEmp : d.panels.isEmpty = false := List.isEmpty_eq_false.mpr hne
  have hget : d.panels[j]? = some (d.panels.get ⟨j, hjlt⟩) :=
    List.getElem?_eq_getElem hjlt
  set p := d.panels.get ⟨j, hjlt⟩ with hp
  have hfmi : firstMatchIdx p.id d.panels = some j :=
    firstMatchIdx_of_nodup d.panels j p hnd hget
  have hmem : p ∈ d.panels := List.getElem?_mem hget
  have hsw := switchSection_found d p.id c ⟨p, hmem, rfl⟩ hc
    (fun _ => by simp [hl])
  refine ⟨⟨activateItem p.id (clearItems d.navItems),
           activatePanel p.id (clearPanels d.panels),
           labelAfter d.label p.id, d.labelActiveClass, some 0, p.id,
           d.history ++ [p.id]⟩, ?_, ?_, ?_, ?_, ?_⟩
  · show keydownArrow d k = _
    simp only [keydownArrow, navTarget, hEmp, Bool.false_eq_true, if_false,
      hj, hget]
    exact hsw
  · show firstActiveIdx (activatePanel p.id (clearPanels d.panels)) = some j
    exact firstActiveIdx_activatePanel p.id (clearPanels d.panels) j
      (clearPanels_inactive _)
      (by rw [firstMatchIdx_clearPanels]; exact hfmi)
  · show (activatePanel p.id (clearPanels d.panels)).map ContentSection.id = _
    rw [activatePanel_map_id, clearPanels_map_id]
  · rfl
  · show ∃ t2, labelAfter d.label p.id = some t2
    cases hcn : channelNames p.id with
    | some t2 => exact ⟨t2, by simp [labelAfter, hcn]⟩
    | none => exact ⟨t, by simp [labelAfter, hcn, hl]⟩

theorem pressRightIter_spec :
    ∀ (k : Nat) (d : Doc) (ids : List String) (a : Nat) (c : Nat) (t : String),
      d.panels.map ContentSection.id = ids → ids.Nodup →
      firstActiveIdx d.panels = some a →
      d.container = some c → d.label = some t →
      ∃ r cr tr, pressRightIter k d = Except.ok r ∧
        r.panels.map ContentSection.id = ids ∧
        firstActiveIdx r.panels = some ((a + k) % ids.length) ∧
        r.container = some cr ∧ r.label = some tr := by
  intro k
  induction k with
  | zero =>
    intro d ids a c t hids hnd ha hc hl
    have haN : a < ids.length := by
      have h1 := firstActiveIdx_lt_length _ _ ha
      have h2 : d.panels.length = ids.length := by
        rw [← hids, List.length_map]
      omega
    exact ⟨d, c, t, rfl, hids,
      by rw [ha, Nat.add_zero, Nat.mod_eq_of_lt haN], hc, hl⟩
  | succ n ih =>
    intro d ids a c t hids hnd ha hc hl
    have hlen : d.panels.length = ids.length := by
      rw [← hids, List.length_map]
    have haN : a < ids.length := by
      have := firstActiveIdx_lt_length _ _ ha
      omega
    have hne : d.panels ≠ [] := by
      intro h0
      rw [h0] at ha
      simp [firstActiveIdx] at ha
    have hj : (nextIndexJS d.panels .right).toNat = (a + 1) % ids.length := by
      show ((currentIndex d.panels + 1).tmod (d.panels.length : Int)).toNat = _
      unfold currentIndex
      rw [ha]
      have h1 : ((a : Int) + 1) = ((a + 1 : Nat) : Int) := by omega
      rw [h1, natCast_tmod, Int.toNat_ofNat, hlen]
    have hjlt : (a + 1) % ids.length < d.panels.length := by
      rw [hlen]
      exact Nat.mod_lt _ (by omega)
    obtain ⟨r, hr, hact, hmap, hcont, t2, hlbl⟩ :=
      keydownArrow_activates d .right c t _ (hids ▸ hnd) hc hl hne hj hjlt
    obtain ⟨r2, cr, tr, hiter, hids2, hfa2, hc2, hl2⟩ :=
      ih r ids ((a + 1) % ids.length) 0 t2 (hmap.trans hids) hnd hact hcont hlbl
    refine ⟨r2, cr, tr, ?_, hids2, ?_, hc2, hl2⟩
    · show pressRightIter (n + 1) d = Except.ok r2
      unfold pressRightIter
      rw [hr]
      exact hiter
    · rw [hfa2]
      congr 1
      rw [Nat.mod_add_mod]
      congr 1
      omega

/-! ### Claim C6 -/

/-- Claim C6: for any page with `N ≥ 1` panels and `i` the code's current
index (the ordinal of the first active panel, `-1` when none is active),
a left press targets the panel at index `(i - 1 + N) mod N`, a right
press the panel at index `(i + 1) mod N` (mathematical modulus), the
index is in `[0, N)` even when `i = -1`, and the handler invokes
`switchSection` on exactly that panel's id. -/
theorem claim6_arrow_index (d : Doc) (N i : Int)
    (hne : d.panels ≠ [])
    (hN : N = (d.panels.length : Int))
    (hi : i = currentIndex d.panels) :
    (0 ≤ (i - 1 + N) % N ∧ (i - 1 + N) % N < N ∧
      0 ≤ (i + 1) % N ∧ (i + 1) % N < N) ∧
    (∃ pL, d.panels[((i - 1 + N) % N).toNat]? = some pL ∧
      keydownArrow d ArrowKey.left = switchSection d pL.id) ∧
    (∃ pR, d.panels[((i + 1) % N).toNat]? = some pR ∧
      keydownArrow d ArrowKey.right = switchSection d pR.id) := by
  subst hN hi
  have hN1 : 1 ≤ d.panels.length := List.length_pos.mpr hne
  have hEmp : d.panels.isEmpty = false := List.isEmpty_eq_false.mpr hne
  have hib : -1 ≤ currentIndex d.panels ∧
      currentIndex d.panels < (d.panels.length : Int) := by
    rcases currentIndex_bounds d.panels with h | h
    · exact h
    · rw [h]
      constructor <;> omega
  obtain ⟨hR1, hR2, hR3⟩ := navmod_spec (currentIndex d.panels + 1)
    d.panels.length hN1 (Or.inl (by omega))
  have hxL : 0 ≤ currentIndex d.panels - 1 + (d.panels.length : Int) ∨
      (currentIndex d.panels - 1 + (d.panels.length : Int) = -1 ∧
        d.panels.length = 1) := by
    rcases em (currentIndex d.panels = -1) with hm | hm
    · rcases Nat.lt_or_ge d.panels.length 2 with h2 | h2
      · right
        constructor <;> omega
      · left
        omega
    · left
      have := hib.1
      omega
  obtain ⟨hL1, hL2, hL3⟩ := navmod_spec
    (currentIndex d.panels - 1 + (d.panels.length : Int))
    d.panels.length hN1 hxL
  refine ⟨⟨hL2, hL3, hR2, hR3⟩, ?_, ?_⟩
  · have hjlt : ((currentIndex d.panels - 1 + (d.panels.length : Int)) %
        (d.panels.length : Int)).toNat < d.panels.length := by omega
    refine ⟨d.panels.get ⟨_, hjlt⟩, List.getElem?_eq_getElem hjlt, ?_⟩
    have hnx : nextIndexJS d.panels ArrowKey.left =
        (currentIndex d.panels - 1 + (d.panels.length : Int)) %
          (d.panels.length : Int) := hL1
    simp only [keydownArrow, navTarget, hEmp, Bool.false_eq_true, if_false,
      hnx, List.getElem?_eq_getElem hjlt]
    rfl
  · have hjlt : ((currentIndex d.panels + 1) %
        (d.panels.length : Int)).toNat < d.panels.length := by omega
    refine ⟨d.panels.get ⟨_, hjlt⟩, List.getElem?_eq_getElem hjlt, ?_⟩
    have hnx : nextIndexJS d.panels ArrowKey.right =
        (currentIndex d.panels + 1) % (d.panels.length : Int) := hR1
    simp only [keydownArrow, navTarget, hEmp, Bool.false_eq_true, if_false,
      hnx, List.getElem?_eq_getElem hjlt]
    rfl

/-- Witness for C6 at `docThree` (3 panels, active index 1). -/
theorem claim6_witness :
    (docThree.panels ≠ [] ∧ (3 : Int) = (docThree.panels.length : Int) ∧
      (1 : Int) = currentIndex docThree.panels) ∧
    (0 ≤ ((1 : Int) - 1 + 3) % 3 ∧ ((1 : Int) - 1 + 3) % 3 < 3 ∧
      0 ≤ ((1 : Int) + 1) % 3 ∧ ((1 : Int) + 1) % 3 < 3) :=
  ⟨⟨by decide, by decide, by decide⟩,
   (claim6_arrow_index docThree 3 1 (by decide) (by decide) (by decide)).1⟩

/-! ### Claim C7 -/

/-- Claim C7: with `N` panels with distinct ids, some panel active and
label and scroll container present, `N` consecutive right presses all
succeed and return the active panel to the original index (and the panel
ids are unchanged, so it is the original Section). -/
theorem claim7_n_rights_identity (d : Doc) (N a c : Nat) (t : String)
    (hN : d.panels.length = N)
    (hnd : (d.panels.map ContentSection.id).Nodup)
    (ha : firstActiveIdx d.panels = some a)
    (hc : d.container = some c) (hl : d.label = some t) :
    ∃ r, pressRightIter N d = Except.ok r ∧
      firstActiveIdx r.panels = some a ∧
      r.panels.map ContentSection.id = d.panels.map ContentSection.id := by
  obtain ⟨r, cr, tr, h1, h2, h3, -, -⟩ :=
    pressRightIter_spec N d (d.panels.map ContentSection.id) a c t
      rfl hnd ha hc hl
  have hlen : (d.panels.map ContentSection.id).length = N := by
    rw [List.length_map, hN]
  have haN : a < N := by
    have := firstActiveIdx_lt_length _ _ ha
    omega
  refine ⟨r, h1, ?_, h2⟩
  rw [h3, hlen, Nat.add_mod_right, Nat.mod_eq_of_lt haN]

/-- Witness for C7 at `docThree`: three right presses restore index 1. -/
theorem claim7_witness :
    (docThree.panels.length = 3 ∧
      (docThree.panels.map ContentSection.id).Nodup ∧
      firstActiveIdx docThree.panels = some 1 ∧
      docThree.container = some 0 ∧ docThree.label = some "# live-demo") ∧
    (∃ r, pressRightIter 3 docThree = Except.ok r ∧
      firstActiveIdx r.panels = some 1 ∧
      r.panels.map ContentSection.id =
        docThree.panels.map ContentSection.id) :=
  ⟨⟨by decide, by decide, by decide, by decide, by decide⟩,
   claim7_n_rights_identity docThree 3 1 0 "# live-demo"
     (by decide) (by decide) (by decide) (by decide) (by decide)⟩

/-! ### Claim C10 -/

/-- Claim C10: when no panel is active and `N ≥ 2` panels (with distinct
ids) exist, with label and container present, a left press activates the
panel at index `N - 2` and a right press activates the panel at index
`0`, via the `-1` index fallthrough. -/
theorem claim10_fallthrough (d : Doc) (N c : Nat) (t : String)
    (hN : d.panels.length = N) (h2 : 2 ≤ N)
    (hnone : firstActiveIdx d.panels = none)
    (hnd : (d.panels.map ContentSection.id).Nodup)
    (hc : d.container = some c) (hl : d.label = some t) :
    (∃ r, keydownArrow d ArrowKey.left = Except.ok r ∧
      firstActiveIdx r.panels = some (N - 2)) ∧
    (∃ r, keydownArrow d ArrowKey.right = Except.ok r ∧
      firstActiveIdx r.panels = some 0) := by
  have hne : d.panels ≠ [] := by
    intro h0
    rw [h0] at hN
    simp at hN
    omega
  have hci : currentIndex d.panels = -1 := by
    unfold currentIndex
    rw [hnone]
  constructor
  · have hjL : (nextIndexJS d.panels ArrowKey.left).toNat = N - 2 := by
      show ((currentIndex d.panels - 1 + (d.panels.length : Int)).tmod
        (d.panels.length : Int)).toNat = N - 2
      rw [hci, hN]
      have hx : ((-1 : Int) - 1 + (N : Int)) = ((N - 2 : Nat) : Int) := by
        omega
      rw [hx, natCast_tmod, Int.toNat_ofNat, Nat.mod_eq_of_lt (by omega)]
    obtain ⟨r, hr, hact, -, -, -⟩ :=
      keydownArrow_activates d .left c t (N - 2) hnd hc hl hne hjL (by omega)
    exact ⟨r, hr, hact⟩
  · have hjR : (nextIndexJS d.panels ArrowKey.right).toNat = 0 := by
      show ((currentIndex d.panels + 1).tmod
        (d.panels.length : Int)).toNat = 0
      rw [hci]
      have hx : ((-1 : Int) + 1) = ((0 : Nat) : Int) := by omega
      rw [hx, natCast_tmod]
      simp
    obtain ⟨r, hr, hact, -, -, -⟩ :=
      keydownArrow_activates d .right c t 0 hnd hc hl hne hjR (by omega)
    exact ⟨r, hr, hact⟩

/-- Witness for C10 at `docNoneActive` (3 panels, none active): left
activates index 1, right activates index 0. -/
theorem claim10_witness :
    (docNoneActive.panels.length = 3 ∧
      firstActiveIdx docNoneActive.panels = none ∧
      (docNoneActive.panels.map ContentSection.id).Nodup ∧
      docNoneActive.container = some 0 ∧
      docNoneActive.label = some "# welcome") ∧
    ((∃ r, keydownArrow docNoneActive ArrowKey.left = Except.ok r ∧
      firstActiveIdx r.panels = some (3 - 2)) ∧
     (∃ r, keydownArrow docNoneActive ArrowKey.right = Except.ok r ∧
      firstActiveIdx r.panels = some 0)) :=
  ⟨⟨by decide, by decide, by decide, by decide, by decide⟩,
   claim10_fallthrough docNoneActive 3 0 "# welcome"
     (by decide) (by decide) (by decide) (by decide) (by decide)
     (by decide)⟩

/-! ### Konami buffer lemmas -/

theorem lastN_append_singleton (n : Nat) (hn : 0 < n) (l : List String)
    (x : String) : lastN n (l ++ [x]) = lastN (n - 1) l ++ [x] := by
  unfold lastN
  rw [List.reverse_append]
  obtain ⟨m, rfl⟩ : ∃ m, n = m + 1 := ⟨n - 1, by omega⟩
  simp only [List.reverse_cons, List.reverse_nil, List.nil_append,
    List.singleton_append, List.take_succ_cons]
  simp

theorem lastN_lastN (n m : Nat) (l : List String) :
    lastN n (lastN m l) = lastN (min n m) l := by
  unfold lastN
  rw [List.reverse_reverse, List.take_take]

theorem lastN_length (n : Nat) (l : List String) :
    (lastN n l).length = min n l.length := by
  simp [lastN]

theorem lastN_append_of_length (n : Nat) (p A : List String)
    (h : A.length = n) : lastN n (p ++ A) = A := by
  unfold lastN
  rw [List.reverse_append, List.take_left' (by simpa using h),
    List.reverse_reverse]

theorem foldl_konamiStep (keys : List String) :
    ∀ p : List String,
      keys.foldl konamiStep (lastN 10 p) = lastN 10 (p ++ keys) := by
  induction keys with
  | nil => intro p; simp
  | cons k ks ih =>
    intro p
    rw [List.foldl_cons]
    have hstep : konamiStep (lastN 10 p) k = lastN 10 (p ++ [k]) := by
      unfold konamiStep
      rw [lastN_append_singleton 10 (by omega),
        lastN_append_singleton 10 (by omega), lastN_lastN]
      norm_num
    rw [hstep, ih (p ++ [k]), List.append_assoc, List.singleton_append]

theorem konamiRun_eq_lastN (keys : List String) :
    konamiRun keys = lastN 10 keys := by
  have h := foldl_konamiStep keys []
  simpa [konamiRun, lastN] using h

/-! ### String join lemmas -/

theorem foldl_append_str (b : List String) :
    ∀ s : String,
      b.foldl (fun r t => r ++ t) s = s ++ b.foldl (fun r t => r ++ t) "" := by
  induction b with
  | nil => intro s; simp [List.foldl_nil, String.append_empty]
  | cons x xs ih =>
    intro s
    rw [List.foldl_cons, List.foldl_cons, ih (s ++ x), ih ("" ++ x),
      String.empty_append, String.append_assoc]

theorem join_append (a b : List String) :
    String.join (a ++ b) = String.join a ++ String.join b := by
  unfold String.join
  rw [List.foldl_append, foldl_append_str b]

theorem join_singleton (x : String) : String.join [x] = x := by
  unfold String.join
  rw [List.foldl_cons, List.foldl_nil, String.empty_append]

/-- The last character of a string, if any. -/
def lastCh (s : String) : Option Char := s.data.getLast?

theorem lastCh_append (a b : String) (h : b.data ≠ []) :
    lastCh (a ++ b) = lastCh b := by
  unfold lastCh
  rw [String.data_append, List.getLast?_append]
  exact Option.or_of_isSome (List.getLast?_isSome.mpr h)

/-- If the final keydown's key does not even end in the final character
of the joined target sequence, the Easter egg cannot fire on it. -/
theorem konamiFires_last_char_ne (p A : List String) (x : String)
    (hx : x.data ≠ [])
    (hlast : lastCh x ≠ lastCh (String.join konamiSequence)) :
    konamiFires (p ++ (A ++ [x])) = false := by
  have hrun : konamiRun (p ++ (A ++ [x])) = lastN 9 (p ++ A) ++ [x] := by
    rw [konamiRun_eq_lastN, ← List.append_assoc,
      lastN_append_singleton 10 (by omega)]
  unfold konamiFires
  rw [hrun]
  apply beq_eq_false_iff_ne.mpr
  intro heq
  rw [join_append, join_singleton] at heq
  have h1 : lastCh (String.join (lastN 9 (p ++ A)) ++ x) = lastCh x :=
    lastCh_append _ _ hx
  rw [heq] at h1
  exact hlast h1.symm

/-! ### Claim C8 -/

/-- Claim C8, as stated, is false: the code compares `join('')` of the
buffer with `join('')` of the sequence, so a 10-key window whose keys
differ from the designated sequence but concatenate to the same string
also fires the animation.  `konamiCollision` is such a window. -/
theorem claim8_counterexample :
    konamiFires konamiCollision = true ∧
    lastN 10 konamiCollision ≠ konamiSequence ∧
    konamiCollision.length = 10 := by
  decide

/-- Claim C8 (amended): the animation fires after a keydown exactly when
the concatenation of the at-most-10 most recent keys equals the
concatenation of the designated sequence (not when the windows are equal
as lists).  Consequently: typing the designated sequence after any prior
key history fires the animation on its 10th key; during the first 9 keys
of the sequence it never fires; and a 9-correct-plus-1-wrong attempt
(final key `w ≠ "a"`) does not fire on its last key either, so a later
fully correct sequence still registers. -/
theorem claim8_konami (ks p : List String) (j : Nat) (w : String) :
    (konamiFires ks = true ↔
      String.join (lastN 10 ks) = String.join konamiSequence) ∧
    konamiFires (p ++ konamiSequence) = true ∧
    (1 ≤ j → j ≤ 9 → konamiFires (p ++ konamiSequence.take j) = false) ∧
    (w ≠ "a" → konamiFires (p ++ (konamiSequence.take 9 ++ [w])) = false) := by
  refine ⟨?_, ?_, ?_, ?_⟩
  · unfold konamiFires
    rw [konamiRun_eq_lastN]
    exact beq_iff_eq
  · unfold konamiFires
    rw [konamiRun_eq_lastN, lastN_append_of_length 10 p konamiSequence rfl]
    exact beq_self_eq_true _
  · intro h1 h9
    interval_cases j
    · exact konamiFires_last_char_ne p [] "ArrowUp" (by decide) (by decide)
    · exact konamiFires_last_char_ne p ["ArrowUp"] "ArrowUp"
        (by decide) (by decide)
    · exact konamiFires_last_char_ne p ["ArrowUp", "ArrowUp"] "ArrowDown"
        (by decide) (by decide)
    · exact konamiFires_last_char_ne p
        ["ArrowUp", "ArrowUp", "ArrowDown"] "ArrowDown"
        (by decide) (by decide)
    · exact konamiFires_last_char_ne p
        ["ArrowUp", "ArrowUp", "ArrowDown", "ArrowDown"] "ArrowLeft"
        (by decide) (by decide)
    · exact konamiFires_last_char_ne p
        ["ArrowUp", "ArrowUp", "ArrowDown", "ArrowDown", "ArrowLeft"]
        "ArrowRight" (by decide) (by decide)
    · exact konamiFires_last_char_ne p
        ["ArrowUp", "ArrowUp", "ArrowDown", "ArrowDown", "ArrowLeft",
         "ArrowRight"] "ArrowLeft" (by decide) (by decide)
    · exact konamiFires_last_char_ne p
        ["ArrowUp", "ArrowUp", "ArrowDown", "ArrowDown", "ArrowLeft",
         "ArrowRight", "ArrowLeft"] "ArrowRight" (by decide) (by decide)
    · exact konamiFires_last_char_ne p
        ["ArrowUp", "ArrowUp", "ArrowDown", "ArrowDown", "ArrowLeft",
         "ArrowRight", "ArrowLeft", "ArrowRight"] "b"
        (by decide) (by decide)
  · intro hw
    unfold konamiFires
    rw [konamiRun_eq_lastN, ← List.append_assoc,
      lastN_append_singleton 10 (by omega),
      lastN_append_of_length 9 p (konamiSequence.take 9) rfl]
    apply beq_eq_false_iff_ne.mpr
    intro heq
    rw [join_append, join_singleton] at heq
    have htarget : String.join konamiSequence =
        String.join (konamiSequence.take 9) ++ "a" := by decide
    rw [htarget] at heq
    have hd := congrArg String.data heq
    rw [String.data_append, String.data_append] at hd
    exact hw (String.ext (List.append_cancel_left hd))

/-- Witness for the amended C8 with empty prior history, `j = 5`,
`w = "x"`. -/
theorem claim8_witness :
    (1 ≤ 5 ∧ 5 ≤ 9 ∧ ("x" : String) ≠ "a") ∧
    konamiFires ([] ++ konamiSequence) = true ∧
    konamiFires ([] ++ konamiSequence.take 5) = false ∧
    konamiFires ([] ++ (konamiSequence.take 9 ++ ["x"])) = false :=
  ⟨⟨by decide, by decide, by decide⟩,
   (claim8_konami [] [] 5 "x").2.1,
   (claim8_konami [] [] 5 "x").2.2.1 (by decide) (by decide),
   (claim8_konami [] [] 5 "x").2.2.2 (by decide)⟩

/-! ### Claim C9 -/

/-- Claim C9: after any keydown stream, the Konami buffer holds exactly
the (at most 10) most recent keys: it equals `lastN 10` of the stream,
so its length is at most 10 (and exactly `min 10` the stream length). -/
theorem claim9_buffer_bound (ks : List String) :
    konamiRun ks = lastN 10 ks ∧ (konamiRun ks).length ≤ 10 ∧
    (konamiRun ks).length = min 10 ks.length := by
  refine ⟨konamiRun_eq_lastN ks, ?_, ?_⟩
  · rw [konamiRun_eq_lastN, lastN_length]
    omega
  · rw [konamiRun_eq_lastN, lastN_length]
